import Mathlib

/-!
# Verification of the imagen repository against its specification

The repository consists of a Streamlit front-end (`main.py`, present in the
source tree) and two Flask services (absent from the source tree) whose only
non-trivial logic is an adaptive image compression routine described in the
specification.  This file gives a shallow embedding of

* the adaptive compression routine, modelled from the specification because
  the Flask services are not part of the available sources, and
* the front-end's cloud-logging helpers and generate-button handler,
  translated from `main.py`.

Strings are modelled as lists of characters; byte buffers as lists of
natural numbers below 256; external effects (HTTP, GCS, BigQuery, image
codecs) as oracle parameters describing their outcome.
-/

/-! ## Part 1: the Adaptive Compressor (modelled from the spec) -/

/-- Modelled from the spec: a raster image is a 2-D grid of pixels with
explicit width and height; the pixel data is opaque to the routine, so only
the dimensions are kept.  Dimensions are natural numbers, so the spec's
"negative dimensions" collapse into the zero case. -/
structure RasterImage where
  width : Nat
  height : Nat
deriving DecidableEq

/-- Modelled from the spec: the tunable compression parameters, with the
defaults given in the data-model section.  The spec fixes `qualityStep` at 5
and the downscale factor at 0.9, so those are constants below rather than
fields. -/
structure CompressionParameters where
  maxBytes : Nat := 1048576
  maxPixels : Nat := 1000000
  initialQuality : Nat := 50
  qualityFloor : Nat := 10
deriving DecidableEq

/-- Modelled from the spec: the fixed quality decrement per unsuccessful
iteration. -/
def qualityStep : Nat := 5

/-- Modelled from the spec: the minimum-dimension floor (8 pixels) that the
spec requires as the explicit termination bound of the fitting loop. -/
def minDim : Nat := 8

/-- Modelled from the spec: shrinking one dimension by the downscale factor
0.9, rounded to the nearest integer pixel (round half up). -/
def downscale (n : Nat) : Nat := (9 * n + 5) / 10

/-- Modelled from the spec: the quality for the next iteration, decreased by
`qualityStep` and clamped to never go below the quality floor. -/
def nextQuality (p : CompressionParameters) (q : Nat) : Nat :=
  max p.qualityFloor (q - qualityStep)

/-- State of the size-fitting loop: current width, height and quality. -/
structure LoopState where
  w : Nat
  h : Nat
  q : Nat
deriving DecidableEq

/-- One unsuccessful iteration of the fitting loop: quality drops by
`qualityStep` (clamped at the floor) and both dimensions shrink by the
downscale factor, unconditionally. -/
def stepState (p : CompressionParameters) (s : LoopState) : LoopState :=
  { w := downscale s.w, h := downscale s.h, q := nextQuality p s.q }

/-- Result of a compression run: the returned encoded buffer, the final
dimensions and quality at which it was produced, and the list of loop states
at which an encode was attempted (in order). -/
structure CompressResult where
  buffer : List Nat
  finalW : Nat
  finalH : Nat
  finalQ : Nat
  trace : List LoopState
deriving DecidableEq

/-- Modelled from the spec: the size-fitting loop.  `enc w h q` is the
encoded buffer produced by the lossy encoder at the given dimensions and
quality (the encoder itself is an opaque external capability).  The loop
re-encodes until the buffer fits in `maxBytes`, or until quality has reached
the floor and a dimension has dropped below `minDim` (the graceful
degradation exit the spec requires).  The structural `fuel` argument is the
explicit iteration cap the spec demands; `compress` passes enough fuel that
it is never exhausted. -/
def compressLoop (enc : Nat → Nat → Nat → List Nat) (p : CompressionParameters) :
    Nat → LoopState → CompressResult
  | 0, s =>
    { buffer := enc s.w s.h s.q, finalW := s.w, finalH := s.h, finalQ := s.q, trace := [s] }
  | fuel + 1, s =>
    let buf := enc s.w s.h s.q
    if buf.length ≤ p.maxBytes then
      { buffer := buf, finalW := s.w, finalH := s.h, finalQ := s.q, trace := [s] }
    else if s.q ≤ p.qualityFloor ∧ (s.w < minDim ∨ s.h < minDim) then
      { buffer := buf, finalW := s.w, finalH := s.h, finalQ := s.q, trace := [s] }
    else
      let r := compressLoop enc p fuel (stepState p s)
      { r with trace := s :: r.trace }

/-- Modelled from the spec: the pre-resize step.  If the pixel count exceeds
`maxPixels`, the image is resized by the scale factor
sqrt(maxPixels / (width * height)); the real-valued rounding of
width * sqrt(maxPixels / (width * height)) is modelled by the integer square
root of maxPixels * width / height (floor rounding). -/
def preResize (p : CompressionParameters) (img : RasterImage) : RasterImage :=
  if img.width * img.height > p.maxPixels then
    { width := Nat.sqrt (p.maxPixels * img.width / img.height),
      height := Nat.sqrt (p.maxPixels * img.height / img.width) }
  else img

/-- Modelled from the spec: the distinct error for invalid inputs
(zero-area image, non-positive parameters). -/
inductive CompressError where
  | invalidInput
deriving DecidableEq

/-- Fuel passed to the fitting loop: one more than an upper bound on the
loop's decreasing measure, so the fuel-exhaustion branch is unreachable. -/
def compressFuel (p : CompressionParameters) (img : RasterImage) : Nat :=
  p.initialQuality + img.width + img.height + 1

/-- Modelled from the spec: the Adaptive Compressor.  Inputs failing
validation (zero width or height, zero `maxBytes` or `maxPixels`) surface as
an `invalidInput` error with no encode attempted; otherwise the image is
pre-resized at most once and handed to the size-fitting loop at
`initialQuality`. -/
def compress (enc : Nat → Nat → Nat → List Nat) (p : CompressionParameters)
    (img : RasterImage) : Except CompressError CompressResult :=
  if img.width = 0 ∨ img.height = 0 ∨ p.maxBytes = 0 ∨ p.maxPixels = 0 then
    Except.error CompressError.invalidInput
  else
    let pre := preResize p img
    Except.ok (compressLoop enc p (compressFuel p pre)
      { w := pre.width, h := pre.height, q := p.initialQuality })

/-! ### Basic lemmas about the loop arithmetic -/

theorem downscale_le (n : Nat) : downscale n ≤ n := by
  unfold downscale
  omega

theorem downscale_lt (n : Nat) (h : 6 ≤ n) : downscale n < n := by
  unfold downscale
  omega

theorem floor_le_nextQuality (p : CompressionParameters) (q : Nat) :
    p.qualityFloor ≤ nextQuality p q :=
  Nat.le_max_left _ _

theorem nextQuality_le (p : CompressionParameters) (q Q : Nat)
    (hf : p.qualityFloor ≤ Q) (hq : q ≤ Q) : nextQuality p q ≤ Q :=
  Nat.max_le.mpr ⟨hf, Nat.le_trans (Nat.sub_le _ _) hq⟩

theorem nextQuality_drop (p : CompressionParameters) (q : Nat)
    (h : p.qualityFloor < q) :
    nextQuality p q - p.qualityFloor < q - p.qualityFloor := by
  unfold nextQuality qualityStep
  omega

/-! ### Structural lemmas about the fitting loop -/

/-- The returned buffer is the encoder output at the final state, the final
state is recorded in the trace, and the trace starts at the initial state. -/
theorem compressLoop_final (enc : Nat → Nat → Nat → List Nat)
    (p : CompressionParameters) (fuel : Nat) (s : LoopState) :
    (compressLoop enc p fuel s).buffer =
        enc (compressLoop enc p fuel s).finalW (compressLoop enc p fuel s).finalH
          (compressLoop enc p fuel s).finalQ ∧
      ⟨(compressLoop enc p fuel s).finalW, (compressLoop enc p fuel s).finalH,
          (compressLoop enc p fuel s).finalQ⟩ ∈ (compressLoop enc p fuel s).trace ∧
      (compressLoop enc p fuel s).trace.head? = some s := by
  induction fuel generalizing s with
  | zero => simp [compressLoop]
  | succ n ih =>
    rw [compressLoop]
    split
    · simp
    · split
      · simp
      · have ih' := ih (stepState p s)
        simp only [List.mem_cons, List.head?_cons, Option.some.injEq]
        exact ⟨ih'.1, Or.inr ih'.2.1, trivial⟩

/-- If the fuel strictly exceeds the loop's decreasing measure, the loop
ends in one of its two designed exits: the buffer fits, or quality is at the
floor and a dimension is below the minimum. -/
theorem compressLoop_exit (enc : Nat → Nat → Nat → List Nat)
    (p : CompressionParameters) (fuel : Nat) (s : LoopState)
    (hfuel : s.q - p.qualityFloor + s.w + s.h < fuel) :
    (compressLoop enc p fuel s).buffer.length ≤ p.maxBytes ∨
      ((compressLoop enc p fuel s).finalQ ≤ p.qualityFloor ∧
        ((compressLoop enc p fuel s).finalW < minDim ∨
          (compressLoop enc p fuel s).finalH < minDim)) := by
  induction fuel generalizing s with
  | zero => omega
  | succ n ih =>
    rw [compressLoop]
    split
    · left; assumption
    · rename_i hfit
      split
      · rename_i hdeg
        right
        simpa using hdeg
      · rename_i hdeg
        have hcases : p.qualityFloor < s.q ∨ (minDim ≤ s.w ∧ minDim ≤ s.h) := by
          by_cases hq : s.q ≤ p.qualityFloor
          · right
            constructor <;> by_contra hlt <;> exact hdeg ⟨hq, by omega⟩
          · left; omega
        have hmeas : (stepState p s).q - p.qualityFloor + (stepState p s).w +
            (stepState p s).h < n := by
          have hw := downscale_le s.w
          have hh := downscale_le s.h
          rcases hcases with hq | ⟨hw8, hh8⟩
          · have := nextQuality_drop p s.q hq
            simp only [stepState]
            omega
          · have hwlt := downscale_lt s.w (by unfold minDim at hw8; omega)
            have hhlt := downscale_lt s.h (by unfold minDim at hh8; omega)
            have hq2 : (stepState p s).q - p.qualityFloor ≤ s.q - p.qualityFloor := by
              simp only [stepState, nextQuality, qualityStep]
              omega
            simp only [stepState] at hq2 ⊢
            omega
        simpa using ih (stepState p s) hmeas

/-- Every pair of consecutive trace states is related by one loop step. -/
theorem compressLoop_chain (enc : Nat → Nat → Nat → List Nat)
    (p : CompressionParameters) (fuel : Nat) (s : LoopState) :
    List.Chain' (fun a b => b = stepState p a) (compressLoop enc p fuel s).trace := by
  induction fuel generalizing s with
  | zero => simp [compressLoop]
  | succ n ih =>
    rw [compressLoop]
    split
    · simp
    · split
      · simp
      · refine List.chain'_cons'.mpr ⟨?_, by simpa using ih (stepState p s)⟩
        intro y hy
        have hhead := (compressLoop_final enc p n (stepState p s)).2.2
        simp only [hhead, Option.mem_def, Option.some.injEq] at hy
        exact hy.symm

/-- Quality invariant: every state the loop visits keeps the quality between
the floor and the starting quality. -/
theorem compressLoop_quality_invariant (enc : Nat → Nat → Nat → List Nat)
    (p : CompressionParameters) (fuel : Nat) (s : LoopState)
    (hlo : p.qualityFloor ≤ s.q) (Q : Nat) (hhi : s.q ≤ Q) :
    ∀ t ∈ (compressLoop enc p fuel s).trace, p.qualityFloor ≤ t.q ∧ t.q ≤ Q := by
  induction fuel generalizing s with
  | zero =>
    intro t ht
    simp only [compressLoop, List.mem_singleton] at ht
    subst ht
    exact ⟨hlo, hhi⟩
  | succ n ih =>
    intro t ht
    rw [compressLoop] at ht
    split at ht
    · simp only [List.mem_singleton] at ht
      subst ht; exact ⟨hlo, hhi⟩
    · split at ht
      · simp only [List.mem_singleton] at ht
        subst ht; exact ⟨hlo, hhi⟩
      · simp only [List.mem_cons] at ht
        rcases ht with rfl | ht
        · exact ⟨hlo, hhi⟩
        · exact ih (stepState p s) (floor_le_nextQuality p s.q)
            (nextQuality_le p s.q Q (Nat.le_trans hlo hhi) hhi) t ht

/-- The number of encode attempts is bounded by the fuel plus one. -/
theorem compressLoop_length_le (enc : Nat → Nat → Nat → List Nat)
    (p : CompressionParameters) (fuel : Nat) (s : LoopState) :
    (compressLoop enc p fuel s).trace.length ≤ fuel + 1 := by
  induction fuel generalizing s with
  | zero => simp [compressLoop]
  | succ n ih =>
    rw [compressLoop]
    split
    · simp
    · split
      · simp
      · simpa using Nat.succ_le_succ (ih (stepState p s))

/-- The pre-resize target dimensions respect the pixel ceiling: the product
of the two integer square roots is at most `maxPixels`. -/
theorem preResize_pixels_le (m w h : Nat) (hw : 0 < w) (hh : 0 < h) :
    Nat.sqrt (m * w / h) * Nat.sqrt (m * h / w) ≤ m := by
  have hab : m * w / h * (m * h / w) ≤ m * m := by
    have h1 : m * w / h * (m * h / w) ≤ m * w * (m * h) / (h * w) :=
      Nat.div_mul_div_le (m * w) h (m * h) w
    have h2 : m * w * (m * h) = m * m * (h * w) := by ring
    have h3 : m * w * (m * h) / (h * w) = m * m := by
      rw [h2, Nat.mul_div_cancel _ (Nat.mul_pos hh hw)]
    omega
  have hsq : Nat.sqrt (m * w / h) * Nat.sqrt (m * h / w) ≤
      Nat.sqrt (m * w / h * (m * h / w)) := by
    rw [Nat.le_sqrt]
    calc Nat.sqrt (m * w / h) * Nat.sqrt (m * h / w) *
          (Nat.sqrt (m * w / h) * Nat.sqrt (m * h / w))
        = Nat.sqrt (m * w / h) * Nat.sqrt (m * w / h) *
          (Nat.sqrt (m * h / w) * Nat.sqrt (m * h / w)) := by ring
      _ ≤ m * w / h * (m * h / w) :=
          Nat.mul_le_mul (Nat.sqrt_le _) (Nat.sqrt_le _)
  calc Nat.sqrt (m * w / h) * Nat.sqrt (m * h / w)
      ≤ Nat.sqrt (m * w / h * (m * h / w)) := hsq
    _ ≤ Nat.sqrt (m * m) := Nat.sqrt_le_sqrt hab
    _ = m := Nat.sqrt_eq m

/-- For valid inputs, `compress` unfolds to a run of the fitting loop on the
pre-resized image. -/
theorem compress_ok (enc : Nat → Nat → Nat → List Nat) (p : CompressionParameters)
    (img : RasterImage)
    (h : ¬(img.width = 0 ∨ img.height = 0 ∨ p.maxBytes = 0 ∨ p.maxPixels = 0)) :
    compress enc p img = Except.ok (compressLoop enc p (compressFuel p (preResize p img))
      { w := (preResize p img).width, h := (preResize p img).height,
        q := p.initialQuality }) := by
  rw [compress, if_neg h]

/-! ### Claim theorems for the Adaptive Compressor -/

/-- Claim C1, counterexample to the claim as stated: the compressor does not
return an encoded buffer for *every* RasterImage — a zero-width image is
rejected with an InvalidInput error (as claim C3 and the spec's
error-handling section require), so no buffer is produced for it. -/
theorem compress_not_total_on_zero_width :
    compress (fun _ _ _ => [0])
      { maxBytes := 1048576, maxPixels := 1000000, initialQuality := 50, qualityFloor := 10 }
      { width := 0, height := 10 } = Except.error CompressError.invalidInput := by
  rfl

/-- Claim C1 (amended to inputs passing validation): for every image with
nonzero dimensions and nonzero size ceilings, the Adaptive Compressor
returns an EncodedBuffer (never an error), and the returned buffer either
fits the byte ceiling, or quality has reached the quality floor and a
dimension has shrunk below the defined minimum, in which case the returned
buffer is the best attempt — the encoder output at the final floor-quality
state (graceful degradation). -/
theorem compress_graceful (enc : Nat → Nat → Nat → List Nat)
    (p : CompressionParameters) (img : RasterImage)
    (hw : img.width ≠ 0) (hh : img.height ≠ 0)
    (hb : p.maxBytes ≠ 0) (hp : p.maxPixels ≠ 0)
    (hq : p.qualityFloor ≤ p.initialQuality) :
    ∃ r, compress enc p img = Except.ok r ∧
      (r.buffer.length ≤ p.maxBytes ∨
        (r.finalQ = p.qualityFloor ∧ (r.finalW < minDim ∨ r.finalH < minDim))) ∧
      r.buffer = enc r.finalW r.finalH r.finalQ := by
  have hvalid : ¬(img.width = 0 ∨ img.height = 0 ∨ p.maxBytes = 0 ∨ p.maxPixels = 0) := by
    tauto
  refine ⟨_, compress_ok enc p img hvalid, ?_, (compressLoop_final enc p _ _).1⟩
  have hfuel : p.initialQuality - p.qualityFloor + (preResize p img).width +
      (preResize p img).height < compressFuel p (preResize p img) := by
    rw [compressFuel]
    omega
  rcases compressLoop_exit enc p (compressFuel p (preResize p img))
      { w := (preResize p img).width, h := (preResize p img).height,
        q := p.initialQuality } hfuel with hfit | ⟨hfloor, hdim⟩
  · exact Or.inl hfit
  · right
    refine ⟨Nat.le_antisymm hfloor ?_, hdim⟩
    have hmem := (compressLoop_final enc p (compressFuel p (preResize p img))
      { w := (preResize p img).width, h := (preResize p img).height,
        q := p.initialQuality }).2.1
    exact (compressLoop_quality_invariant enc p _ _ hq p.initialQuality (Nat.le_refl _)
      _ hmem).1

/-- Claim C2: the size-fitting loop is explicitly bounded — the number of
encode attempts never exceeds initialQuality plus the (pre-resized) width
and height plus two — and whenever the encoder only produces non-empty
buffers, the returned buffer is non-empty; so even pathological inputs
terminate at the minimum-dimension floor with a buffer in hand. -/
theorem compress_terminates_bounded (enc : Nat → Nat → Nat → List Nat)
    (p : CompressionParameters) (img : RasterImage)
    (hw : img.width ≠ 0) (hh : img.height ≠ 0)
    (hb : p.maxBytes ≠ 0) (hp : p.maxPixels ≠ 0) :
    ∃ r, compress enc p img = Except.ok r ∧
      r.trace.length ≤ p.initialQuality + (preResize p img).width +
        (preResize p img).height + 2 ∧
      ((∀ w h q, enc w h q ≠ []) → r.buffer ≠ []) := by
  have hvalid : ¬(img.width = 0 ∨ img.height = 0 ∨ p.maxBytes = 0 ∨ p.maxPixels = 0) := by
    tauto
  refine ⟨_, compress_ok enc p img hvalid, ?_, ?_⟩
  · have := compressLoop_length_le enc p (compressFuel p (preResize p img))
      { w := (preResize p img).width, h := (preResize p img).height,
        q := p.initialQuality }
    have hf : compressFuel p (preResize p img) = p.initialQuality +
        (preResize p img).width + (preResize p img).height + 1 := rfl
    omega
  · intro hne
    rw [(compressLoop_final enc p _ _).1]
    exact hne _ _ _

/-- Claim C3: a zero width or height, or a zero byte or pixel ceiling, makes
the Adaptive Compressor return the distinct InvalidInput error, and the
result does not depend on the encoder — no encode is attempted. -/
theorem compress_invalid_input (enc : Nat → Nat → Nat → List Nat)
    (p : CompressionParameters) (img : RasterImage)
    (h : img.width = 0 ∨ img.height = 0 ∨ p.maxBytes = 0 ∨ p.maxPixels = 0) :
    compress enc p img = Except.error CompressError.invalidInput ∧
      ∀ enc2 : Nat → Nat → Nat → List Nat, compress enc p img = compress enc2 p img := by
  refine ⟨by rw [compress, if_pos h], ?_⟩
  intro enc2
  rw [compress, if_pos h, compress, if_pos h]

/-- Claim C4: throughout the size-fitting loop the quality stays between the
quality floor and the initial quality, and from one encode attempt to the
next it is decreased by `qualityStep`, clamped so it never drops below the
floor. -/
theorem compress_quality_within_bounds (enc : Nat → Nat → Nat → List Nat)
    (p : CompressionParameters) (img : RasterImage) (r : CompressResult)
    (hq : p.qualityFloor ≤ p.initialQuality)
    (hr : compress enc p img = Except.ok r) :
    (∀ s ∈ r.trace, p.qualityFloor ≤ s.q ∧ s.q ≤ p.initialQuality) ∧
      List.Chain' (fun a b => b.q = max p.qualityFloor (a.q - qualityStep)) r.trace := by
  rw [compress] at hr
  split at hr
  · exact absurd hr (by simp)
  · simp only [Except.ok.injEq] at hr
    subst hr
    constructor
    · exact compressLoop_quality_invariant enc p _ _ hq p.initialQuality (Nat.le_refl _)
    · exact (compressLoop_chain enc p _ _).imp (fun a b hab => by subst hab; rfl)

/-- Claim C5: the pre-resize step runs exactly once, before the fitting loop
begins — the loop's first state carries the pre-resized dimensions — it
rescales an oversized image by the integer form of
sqrt(maxPixels / (width * height)) so that the pixel count drops to at most
`maxPixels`, and it leaves an image within the pixel ceiling untouched. -/
theorem preResize_runs_once (p : CompressionParameters) (img : RasterImage) :
    (img.width * img.height > p.maxPixels →
      preResize p img = { width := Nat.sqrt (p.maxPixels * img.width / img.height),
                          height := Nat.sqrt (p.maxPixels * img.height / img.width) } ∧
      (preResize p img).width * (preResize p img).height ≤ p.maxPixels) ∧
    (img.width * img.height ≤ p.maxPixels → preResize p img = img) ∧
    ∀ (enc : Nat → Nat → Nat → List Nat) (r : CompressResult),
      compress enc p img = Except.ok r →
        r.trace.head? = some { w := (preResize p img).width,
                               h := (preResize p img).height, q := p.initialQuality } := by
  refine ⟨?_, ?_, ?_⟩
  · intro h
    have hne : img.width * img.height ≠ 0 := by omega
    have hw : 0 < img.width := Nat.pos_of_ne_zero (Nat.mul_ne_zero_iff.mp hne).1
    have hh : 0 < img.height := Nat.pos_of_ne_zero (Nat.mul_ne_zero_iff.mp hne).2
    have heq : preResize p img =
        { width := Nat.sqrt (p.maxPixels * img.width / img.height),
          height := Nat.sqrt (p.maxPixels * img.height / img.width) } := by
      rw [preResize, if_pos h]
    refine ⟨heq, ?_⟩
    rw [heq]
    exact preResize_pixels_le p.maxPixels img.width img.height hw hh
  · intro h
    rw [preResize, if_neg (Nat.not_lt.mpr h)]
  · intro enc r hr
    rw [compress] at hr
    split at hr
    · exact absurd hr (by simp)
    · simp only [Except.ok.injEq] at hr
      subst hr
      exact (compressLoop_final enc p _ _).2.2

/-- Claim C6: on every unsuccessful iteration of the fitting loop — every
step from one trace state to the next, including those where quality was
already clamped at the floor — both the width and the height are shrunk by
the downscale factor 0.9, rounded to the nearest integer pixel. -/
theorem compress_shrinks_dimensions (enc : Nat → Nat → Nat → List Nat)
    (p : CompressionParameters) (img : RasterImage) (r : CompressResult)
    (hr : compress enc p img = Except.ok r) :
    List.Chain' (fun a b => b.w = downscale a.w ∧ b.h = downscale a.h) r.trace := by
  rw [compress] at hr
  split at hr
  · exact absurd hr (by simp)
  · simp only [Except.ok.injEq] at hr
    subst hr
    exact (compressLoop_chain enc p _ _).imp (fun a b hab => by subst hab; exact ⟨rfl, rfl⟩)

/-! ### Concrete witness inputs for the compressor claims -/

/-- Encoder stub whose output size is the raw pixel count. -/
def encCells : Nat → Nat → Nat → List Nat := fun w h _ => List.replicate (w * h) 0

/-- Encoder stub for an incompressible noise image: never empty, one byte
above three bytes per pixel (capped to keep the buffers small). -/
def noiseEnc : Nat → Nat → Nat → List Nat :=
  fun w h _ => 1 :: List.replicate (min (3 * w * h) 2000) 1

def pSmall : CompressionParameters :=
  { maxBytes := 3, maxPixels := 100, initialQuality := 20, qualityFloor := 10 }

def imgSmall : RasterImage := { width := 3, height := 3 }

/-- The result of running `compress encCells pSmall imgSmall`. -/
def rSmall : CompressResult :=
  { buffer := List.replicate 9 0, finalW := 3, finalH := 3, finalQ := 10,
    trace := [{ w := 3, h := 3, q := 20 }, { w := 3, h := 3, q := 15 },
      { w := 3, h := 3, q := 10 }] }

def pRoomy : CompressionParameters :=
  { maxBytes := 1000, maxPixels := 1000, initialQuality := 50, qualityFloor := 10 }

def imgTen : RasterImage := { width := 10, height := 10 }

/-- The result of running `compress encCells pRoomy imgTen`: fits at once. -/
def rTen : CompressResult :=
  { buffer := List.replicate 100 0, finalW := 10, finalH := 10, finalQ := 50,
    trace := [{ w := 10, h := 10, q := 50 }] }

def pScaled : CompressionParameters :=
  { maxBytes := 1, maxPixels := 5000, initialQuality := 50, qualityFloor := 10 }

def imgWide : RasterImage := { width := 200, height := 100 }

def pNoise : CompressionParameters :=
  { maxBytes := 1024, maxPixels := 1000000, initialQuality := 50, qualityFloor := 10 }

def imgNoise : RasterImage := { width := 100, height := 100 }

/-- Claim C1, witness: the amended theorem instantiated on a 4 by 4 image
whose encoding fits the 20-byte ceiling. -/
theorem compress_graceful_witness :
    ∃ r, compress encCells
        { maxBytes := 20, maxPixels := 100, initialQuality := 50, qualityFloor := 10 }
        { width := 4, height := 4 } = Except.ok r ∧
      (r.buffer.length ≤ 20 ∨ (r.finalQ = 10 ∧ (r.finalW < minDim ∨ r.finalH < minDim))) ∧
      r.buffer = encCells r.finalW r.finalH r.finalQ :=
  compress_graceful encCells
    { maxBytes := 20, maxPixels := 100, initialQuality := 50, qualityFloor := 10 }
    { width := 4, height := 4 }
    (by decide) (by decide) (by decide) (by decide) (by decide)

/-- Claim C2, witness: the spec's pathological scenario — a 100 by 100
noise image against a 1 KiB ceiling — stays within the explicit iteration
bound and yields a non-empty buffer. -/
theorem compress_terminates_bounded_witness :
    ∃ r, compress noiseEnc pNoise imgNoise = Except.ok r ∧
      r.trace.length ≤ pNoise.initialQuality + (preResize pNoise imgNoise).width +
        (preResize pNoise imgNoise).height + 2 ∧
      ((∀ w h q, noiseEnc w h q ≠ []) → r.buffer ≠ []) :=
  compress_terminates_bounded noiseEnc pNoise imgNoise
    (by decide) (by decide) (by decide) (by decide)

/-- Claim C3, witness: a zero-width image is rejected as InvalidInput and
the outcome does not depend on the encoder. -/
theorem compress_invalid_input_witness :
    compress encCells pRoomy { width := 0, height := 5 } =
        Except.error CompressError.invalidInput ∧
      ∀ enc2 : Nat → Nat → Nat → List Nat,
        compress encCells pRoomy { width := 0, height := 5 } =
          compress enc2 pRoomy { width := 0, height := 5 } :=
  compress_invalid_input encCells pRoomy { width := 0, height := 5 } (by decide)

/-- Claim C4, witness: on a concrete run the quality stays within the
floor and the initial quality and decreases by the clamped step. -/
theorem compress_quality_within_bounds_witness :
    (∀ s ∈ rSmall.trace, pSmall.qualityFloor ≤ s.q ∧ s.q ≤ pSmall.initialQuality) ∧
      List.Chain' (fun a b => b.q = max pSmall.qualityFloor (a.q - qualityStep))
        rSmall.trace :=
  compress_quality_within_bounds encCells pSmall imgSmall rSmall (by decide) (by rfl)

/-- Claim C5, witness: a 200 by 100 image against a 5000-pixel ceiling is
resized (to 100 by 50, within the ceiling), a 10 by 10 image against a
1000-pixel ceiling is untouched, and the loop starts from the pre-resized
dimensions. -/
theorem preResize_runs_once_witness :
    (preResize pScaled imgWide =
        { width := Nat.sqrt (pScaled.maxPixels * imgWide.width / imgWide.height),
          height := Nat.sqrt (pScaled.maxPixels * imgWide.height / imgWide.width) } ∧
      (preResize pScaled imgWide).width * (preResize pScaled imgWide).height ≤
        pScaled.maxPixels) ∧
      (preResize pRoomy imgTen = imgTen ∧
        rTen.trace.head? =
          some { w := (preResize pRoomy imgTen).width,
                 h := (preResize pRoomy imgTen).height,
                 q := pRoomy.initialQuality }) :=
  ⟨(preResize_runs_once pScaled imgWide).1 (by decide),
    (preResize_runs_once pRoomy imgTen).2.1 (by decide),
    (preResize_runs_once pRoomy imgTen).2.2 encCells rTen (by rfl)⟩

/-- Claim C6, witness: on a concrete run every consecutive pair of trace
states shrinks both dimensions by the downscale factor. -/
theorem compress_shrinks_dimensions_witness :
    List.Chain' (fun a b => b.w = downscale a.w ∧ b.h = downscale a.h) rSmall.trace :=
  compress_shrinks_dimensions encCells pSmall imgSmall rSmall (by rfl)

/-! ## Part 2: the Streamlit front-end (translated from main.py)

Python strings are modelled as lists of characters.  Python's
Unicode-aware isalnum and isspace are modelled by the ASCII classifiers
Char.isAlphanum and Char.isWhitespace. -/

/-- Python str.strip: drop whitespace from both ends. -/
def pythonStrip (l : List Char) : List Char :=
  ((l.dropWhile Char.isWhitespace).reverse.dropWhile Char.isWhitespace).reverse

/-- The character filter used when building the filename slug in
save-image-to-gcs: keep a character when it is alphanumeric or whitespace
(Python: c.isalnum() or c.isspace()). -/
def sluggable (c : Char) : Bool := c.isAlphanum || c.isWhitespace

/-- The filename slug built from the prompt in save-image-to-gcs
(main.py lines 30-32): filter the first 30 characters down to alphanumeric
and whitespace characters, strip, replace each space with an underscore,
and fall back to "image" when the result is empty. -/
def prompt_slug (prompt : List Char) : List Char :=
  let s := (pythonStrip ((prompt.take 30).filter sluggable)).map
    fun c => if c = ' ' then '_' else c
  if s = [] then "image".toList else s

/-- The slug exactly as claim C10 words it (no strip step; the fallback
fires only when the filtering itself yields an empty string).  Kept for
comparison with `prompt_slug`, which is translated from the code. -/
def prompt_slug_claimed (prompt : List Char) : List Char :=
  let kept := (prompt.take 30).filter sluggable
  if kept = [] then "image".toList
  else kept.map fun c => if c = ' ' then '_' else c

/-- The object filename built in save-image-to-gcs (main.py line 34):
timestamp, underscore, the first 8 characters of the UUID, underscore,
slug, and the png suffix. -/
def gcs_object_name (timestamp uuid prompt : List Char) : List Char :=
  timestamp ++ '_' :: uuid.take 8 ++ '_' :: prompt_slug prompt ++ ".png".toList

/-- The dictionary returned by save-image-to-gcs, with absent keys as
`none`. -/
structure GcsSaveReturn where
  success : Bool
  gcs_uri : Option (List Char)
  public_url : Option (List Char)
  filename : Option (List Char)
  error : Option (List Char)
deriving DecidableEq

/-- save_image_to_gcs (main.py lines 22-64).  The cloud side effects —
client construction, base64 decode, PNG re-encode and upload — are modelled
by the oracle `cloudOps`, mapping the blob's object path to either unit
(the try body ran to completion) or the message of the exception it raised;
the except clause turns that exception into a success-false dictionary. -/
def save_image_to_gcs (timestamp uuid : List Char) (bucket_name prompt : List Char)
    (cloudOps : List Char → Except (List Char) Unit) : GcsSaveReturn :=
  match cloudOps ("gemini_images/".toList ++ gcs_object_name timestamp uuid prompt) with
  | Except.error e =>
    { success := false, gcs_uri := none, public_url := none, filename := none,
      error := some e }
  | Except.ok _ =>
    { success := true,
      gcs_uri := some ("gs://".toList ++ bucket_name ++ "/gemini_images/".toList ++
        gcs_object_name timestamp uuid prompt),
      public_url := some ("https://storage.googleapis.com/".toList ++ bucket_name ++
        "/gemini_images/".toList ++ gcs_object_name timestamp uuid prompt),
      filename := some (gcs_object_name timestamp uuid prompt),
      error := none }

/-- The dictionary returned by log-to-bigquery, with absent keys as
`none`. -/
structure BqLogReturn where
  success : Bool
  errors : Option (List (List Char))
  error : Option (List Char)
deriving DecidableEq

/-- log_to_bigquery (main.py lines 67-85).  The BigQuery client call is
modelled by its outcome: either the error list returned by
insert_rows_json, or the message of the exception it raised. -/
def log_to_bigquery (insert_outcome : Except (List Char) (List (List Char))) :
    BqLogReturn :=
  match insert_outcome with
  | Except.error e => { success := false, errors := none, error := some e }
  | Except.ok errs =>
    if errs.isEmpty then { success := true, errors := none, error := none }
    else { success := false, errors := some errs, error := none }

/-! ### Base64 transport (Python base64.b64encode on the service side,
base64.b64decode in the front-end) -/

/-- The standard base64 alphabet. -/
def b64Table : List Char :=
  ['A', 'B', 'C', 'D', 'E', 'F', 'G', 'H', 'I', 'J', 'K', 'L', 'M',
   'N', 'O', 'P', 'Q', 'R', 'S', 'T', 'U', 'V', 'W', 'X', 'Y', 'Z',
   'a', 'b', 'c', 'd', 'e', 'f', 'g', 'h', 'i', 'j', 'k', 'l', 'm',
   'n', 'o', 'p', 'q', 'r', 's', 't', 'u', 'v', 'w', 'x', 'y', 'z',
   '0', '1', '2', '3', '4', '5', '6', '7', '8', '9', '+', '/']

/-- The base64 digit for a 6-bit value. -/
def b64Char (n : Nat) : Char := b64Table.getD n 'A'

/-- The 6-bit value of a base64 digit. -/
def b64Index (c : Char) : Nat := b64Table.findIdx fun d => d = c

/-- Standard base64 encoding of a byte sequence, with padding. -/
def b64EncodeBytes : List Nat → List Char
  | [] => []
  | [a] => [b64Char (a / 4), b64Char (a % 4 * 16), '=', '=']
  | [a, b] => [b64Char (a / 4), b64Char (a % 4 * 16 + b / 16), b64Char (b % 16 * 4), '=']
  | a :: b :: c :: rest =>
    b64Char (a / 4) :: b64Char (a % 4 * 16 + b / 16) ::
      b64Char (b % 16 * 4 + c / 64) :: b64Char (c % 64) :: b64EncodeBytes rest

/-- Standard base64 decoding of a character sequence, honouring padding. -/
def b64DecodeChars : List Char → List Nat
  | c1 :: c2 :: c3 :: c4 :: rest =>
    let n1 := b64Index c1
    let n2 := b64Index c2
    if c3 = '=' then [n1 * 4 + n2 / 16]
    else
      let n3 := b64Index c3
      if c4 = '=' then [n1 * 4 + n2 / 16, n2 % 16 * 16 + n3 / 4]
      else
        (n1 * 4 + n2 / 16) :: (n2 % 16 * 16 + n3 / 4) ::
          (n3 % 4 * 64 + b64Index c4) :: b64DecodeChars rest
  | _ => []

theorem b64Index_b64Char : ∀ n, n < 64 → b64Index (b64Char n) = n := by decide

theorem b64Char_ne_pad : ∀ n, n < 64 → b64Char n ≠ '=' := by decide

/-- Decoding inverts encoding on byte sequences. -/
theorem b64_decode_encode (bs : List Nat) (hb : ∀ b ∈ bs, b < 256) :
    b64DecodeChars (b64EncodeBytes bs) = bs := by
  match bs with
  | [] => rfl
  | [a] =>
    have ha : a < 256 := hb a (by simp)
    rw [b64EncodeBytes, b64DecodeChars]
    rw [if_pos rfl]
    rw [b64Index_b64Char (a / 4) (by omega), b64Index_b64Char (a % 4 * 16) (by omega)]
    simp only [List.cons.injEq, and_true]
    omega
  | [a, b] =>
    have ha : a < 256 := hb a (by simp)
    have hbb : b < 256 := hb b (by simp)
    rw [b64EncodeBytes, b64DecodeChars]
    rw [if_neg (b64Char_ne_pad (b % 16 * 4) (by omega)), if_pos rfl]
    rw [b64Index_b64Char (a / 4) (by omega), b64Index_b64Char (a % 4 * 16 + b / 16) (by omega),
      b64Index_b64Char (b % 16 * 4) (by omega)]
    simp only [List.cons.injEq, and_true]
    omega
  | a :: b :: c :: rest =>
    have ha : a < 256 := hb a (by simp)
    have hbb : b < 256 := hb b (by simp)
    have hc : c < 256 := hb c (by simp)
    have ih := b64_decode_encode rest (fun x hx => hb x (by simp [hx]))
    rw [b64EncodeBytes, b64DecodeChars]
    rw [if_neg (b64Char_ne_pad (b % 16 * 4 + c / 64) (by omega)),
      if_neg (b64Char_ne_pad (c % 64) (by omega))]
    rw [b64Index_b64Char (a / 4) (by omega), b64Index_b64Char (a % 4 * 16 + b / 16) (by omega),
      b64Index_b64Char (b % 16 * 4 + c / 64) (by omega), b64Index_b64Char (c % 64) (by omega)]
    rw [ih]
    simp only [List.cons.injEq, and_true]
    omega
termination_by bs.length

/-! ### The generate-button handler (main.py lines 288-364, 411-431) -/

/-- The `data` object of the JSON response body, with absent keys as
`none`. -/
structure ApiData where
  images : Option (List (List Char))
  model_version : Option (List Char)
deriving DecidableEq

/-- The JSON response body, with absent keys as `none`. -/
structure ApiResult where
  status : Option (List Char)
  data : Option ApiData
deriving DecidableEq

/-- The success condition of main.py lines 299-301: a `status` key equal to
"success", a `data` key, an `images` key inside `data`, and a non-empty
(truthy) images array. -/
def imagesReady (r : ApiResult) : Bool :=
  match r.status, r.data with
  | some s, some d =>
    if s = "success".toList then
      match d.images with
      | some imgs => !imgs.isEmpty
      | none => false
    else false
  | _, _ => false

/-- The image the handler stores: `result["data"]["images"][0]`. -/
def firstImage (r : ApiResult) : List Char :=
  match r.data with
  | some d =>
    match d.images with
    | some (img :: _) => img
    | _ => []
  | none => []

/-- The cloud calls the handler can make. -/
inductive CloudCall where
  | gcsUpload
  | bqInsert
deriving DecidableEq

/-- What a run of the generate-button handler produced: the base64 string
stored in the session state (displayed and downloaded later), and the cloud
calls that were attempted, in order. -/
structure HandlerOutcome where
  stored_image : Option (List Char)
  calls : List CloudCall
  bq_success : Option Bool
deriving DecidableEq

/-- The generate-button handler (main.py lines 288-356).  On a 200
response whose body passes `imagesReady`, the first image string is stored;
then, only if logging is enabled, the image is saved to GCS, and only if
that save reports success, a BigQuery insert follows.  All other paths
store nothing and make no cloud call. -/
def generate_handler (statusCode : Nat) (r : ApiResult) (logging_enabled : Bool)
    (timestamp uuid bucket prompt : List Char)
    (cloudOps : List Char → Except (List Char) Unit)
    (insert_outcome : Except (List Char) (List (List Char))) : HandlerOutcome :=
  if statusCode = 200 then
    if imagesReady r then
      let stored := firstImage r
      if logging_enabled then
        let gcs_result := save_image_to_gcs timestamp uuid bucket prompt cloudOps
        if gcs_result.success then
          let bq_result := log_to_bigquery insert_outcome
          { stored_image := some stored, calls := [CloudCall.gcsUpload, CloudCall.bqInsert],
            bq_success := some bq_result.success }
        else
          { stored_image := some stored, calls := [CloudCall.gcsUpload], bq_success := none }
      else
        { stored_image := some stored, calls := [], bq_success := none }
    else
      { stored_image := none, calls := [], bq_success := none }
  else
    { stored_image := none, calls := [], bq_success := none }

/-- The byte buffer the display column works from (main.py line 414): the
base64 decode of the stored session string; the image shown and the PNG
offered for download are derived from exactly these bytes. -/
def displayed_image_bytes (stored : Option (List Char)) : Option (List Nat) :=
  stored.map b64DecodeChars

/-! ### Slug lemmas -/

/-- Stripping keeps only characters of the original list. -/
theorem pythonStrip_subset (l : List Char) : ∀ c ∈ pythonStrip l, c ∈ l := by
  intro c hc
  rw [pythonStrip, List.mem_reverse] at hc
  have h1 := (List.dropWhile_sublist _).mem hc
  rw [List.mem_reverse] at h1
  exact (List.dropWhile_sublist _).mem h1

/-- Every character of the slug is alphanumeric, an underscore, or a
non-space whitespace character kept verbatim by the replace step. -/
theorem prompt_slug_chars (prompt : List Char) :
    ∀ c ∈ prompt_slug prompt,
      c.isAlphanum = true ∨ c = '_' ∨ (c.isWhitespace = true ∧ c ≠ ' ') := by
  intro c hc
  simp only [prompt_slug] at hc
  split at hc
  · have himg : ("image".toList) = ['i', 'm', 'a', 'g', 'e'] := rfl
    rw [himg] at hc
    simp only [List.mem_cons, List.not_mem_nil, or_false] at hc
    rcases hc with rfl | rfl | rfl | rfl | rfl <;> left <;> decide
  · rcases List.mem_map.mp hc with ⟨c2, hc2, rfl⟩
    have hmem := pythonStrip_subset _ c2 hc2
    have hslug : sluggable c2 = true := (List.mem_filter.mp hmem).2
    by_cases hsp : c2 = ' '
    · subst hsp
      right; left
      simp
    · simp only [if_neg hsp]
      simp only [sluggable, Bool.or_eq_true] at hslug
      rcases hslug with h | h
      · exact Or.inl h
      · exact Or.inr (Or.inr ⟨h, hsp⟩)

/-! ### Claim theorems for the front-end -/

/-- Claim C7: when a 200 response arrives with status "success" and a
non-empty images array whose first element is the base64 encoding the
service produced, the handler stores exactly that first string, and the
bytes the display column decodes for showing and downloading are exactly
the service's original buffer (base64 decode inverts the encode). -/
theorem image_transport_roundtrip (code : Nat) (r : ApiResult) (log_on : Bool)
    (ts uid bucket prompt : List Char)
    (ops : List Char → Except (List Char) Unit)
    (ins : Except (List Char) (List (List Char)))
    (buf : List Nat) (rest : List (List Char)) (d : ApiData)
    (hc : code = 200) (hd : r.data = some d)
    (hs : r.status = some ("success".toList))
    (hi : d.images = some (b64EncodeBytes buf :: rest))
    (hb : ∀ b ∈ buf, b < 256) :
    (generate_handler code r log_on ts uid bucket prompt ops ins).stored_image =
        some (b64EncodeBytes buf) ∧
      displayed_image_bytes
        (generate_handler code r log_on ts uid bucket prompt ops ins).stored_image =
        some buf := by
  subst hc
  have hready : imagesReady r = true := by
    simp [imagesReady, hs, hd, hi]
  have hfirst : firstImage r = b64EncodeBytes buf := by
    simp [firstImage, hd, hi]
  have hstored : (generate_handler 200 r log_on ts uid bucket prompt ops ins).stored_image =
      some (b64EncodeBytes buf) := by
    by_cases hl : log_on = true <;>
      by_cases hg : (save_image_to_gcs ts uid bucket prompt ops).success = true <;>
      simp [generate_handler, hready, hfirst, hl, hg]
  refine ⟨hstored, ?_⟩
  rw [hstored]
  simp [displayed_image_bytes, b64_decode_encode buf hb]

/-- Claim C8: cloud logging is optional and ordered — with logging disabled
no cloud call happens; a GCS upload happens only with logging enabled on a
successful 200 image response; and a BigQuery insert happens only after a
GCS upload that reported success, in that order. -/
theorem cloud_logging_gated (code : Nat) (r : ApiResult) (log_on : Bool)
    (ts uid bucket prompt : List Char)
    (ops : List Char → Except (List Char) Unit)
    (ins : Except (List Char) (List (List Char))) :
    (log_on = false →
      (generate_handler code r log_on ts uid bucket prompt ops ins).calls = []) ∧
    (CloudCall.gcsUpload ∈ (generate_handler code r log_on ts uid bucket prompt ops ins).calls →
      log_on = true ∧ code = 200 ∧ imagesReady r = true) ∧
    (CloudCall.bqInsert ∈ (generate_handler code r log_on ts uid bucket prompt ops ins).calls →
      (save_image_to_gcs ts uid bucket prompt ops).success = true ∧
      (generate_handler code r log_on ts uid bucket prompt ops ins).calls =
        [CloudCall.gcsUpload, CloudCall.bqInsert]) := by
  by_cases hc : code = 200 <;> by_cases hr : imagesReady r = true <;>
    by_cases hl : log_on = true <;>
    by_cases hg : (save_image_to_gcs ts uid bucket prompt ops).success = true <;>
    simp [generate_handler, hc, hr, hl, hg]

/-- Claim C9: the logging helpers never propagate an exception — a raised
exception becomes a success-false dictionary carrying the error — and
log-to-bigquery reports success exactly when insert-rows returned an empty
error list; otherwise a success key is present and false with the failure
recorded. -/
theorem logging_helpers_never_raise (ts uid bucket prompt : List Char)
    (ops : List Char → Except (List Char) Unit)
    (ins : Except (List Char) (List (List Char))) :
    (∀ e, ops ("gemini_images/".toList ++ gcs_object_name ts uid prompt) = Except.error e →
      save_image_to_gcs ts uid bucket prompt ops =
        { success := false, gcs_uri := none, public_url := none, filename := none,
          error := some e }) ∧
    (∀ e, ins = Except.error e →
      log_to_bigquery ins = { success := false, errors := none, error := some e }) ∧
    ((log_to_bigquery ins).success = true ↔ ins = Except.ok []) ∧
    ((save_image_to_gcs ts uid bucket prompt ops).success = true ∨
      ((save_image_to_gcs ts uid bucket prompt ops).success = false ∧
        (save_image_to_gcs ts uid bucket prompt ops).error.isSome)) ∧
    ((log_to_bigquery ins).success = true ∨
      ((log_to_bigquery ins).success = false ∧
        ((log_to_bigquery ins).error.isSome ∨ (log_to_bigquery ins).errors.isSome))) := by
  refine ⟨?_, ?_, ?_, ?_, ?_⟩
  · intro e he
    rw [save_image_to_gcs, he]
  · intro e he
    subst he
    rfl
  · match ins with
    | Except.error e => simp [log_to_bigquery]
    | Except.ok errs => cases errs <;> simp [log_to_bigquery]
  · rw [save_image_to_gcs]
    split <;> simp
  · match ins with
    | Except.error e => simp [log_to_bigquery]
    | Except.ok errs => cases errs <;> simp [log_to_bigquery]

/-- Claim C10, counterexample to the claim as stated: on the all-space
prompt " " the code's slug is the fallback "image", while the slug the
claim describes (filter, then replace spaces, falling back only when the
filtering yields an empty string) would be "_" — the claim misses the
strip step that empties the filtered string. -/
theorem prompt_slug_strip_divergence :
    prompt_slug (" ".toList) = "image".toList ∧
      prompt_slug_claimed (" ".toList) = "_".toList ∧
      prompt_slug (" ".toList) ≠ prompt_slug_claimed (" ".toList) := by
  decide

/-- Claim C10 (amended: the filtered prefix is also stripped of leading and
trailing whitespace before spaces are replaced, and the "image" fallback
fires when the stripped string is empty): on a successful upload the object
name has the shape timestamp, underscore, 8-character id, underscore, slug,
".png" under the "gemini_images/" prefix, the returned gcs_uri and
public_url reference the same bucket and the same object path, and every
slug character is alphanumeric, an underscore, or a non-space whitespace
character kept verbatim. -/
theorem gcs_object_identity (ts uid bucket prompt : List Char)
    (ops : List Char → Except (List Char) Unit)
    (hok : ops ("gemini_images/".toList ++ gcs_object_name ts uid prompt) =
      Except.ok ()) :
    ∃ objectPath,
      objectPath = "gemini_images/".toList ++ ts ++ '_' :: uid.take 8 ++ '_' ::
          prompt_slug prompt ++ ".png".toList ∧
      (save_image_to_gcs ts uid bucket prompt ops).success = true ∧
      (save_image_to_gcs ts uid bucket prompt ops).filename =
        some (ts ++ '_' :: uid.take 8 ++ '_' :: prompt_slug prompt ++ ".png".toList) ∧
      (save_image_to_gcs ts uid bucket prompt ops).gcs_uri =
        some ("gs://".toList ++ bucket ++ '/' :: objectPath) ∧
      (save_image_to_gcs ts uid bucket prompt ops).public_url =
        some ("https://storage.googleapis.com/".toList ++ bucket ++ '/' :: objectPath) ∧
      ∀ c ∈ prompt_slug prompt,
        c.isAlphanum = true ∨ c = '_' ∨ (c.isWhitespace = true ∧ c ≠ ' ') := by
  have hsave : save_image_to_gcs ts uid bucket prompt ops =
      { success := true,
        gcs_uri := some ("gs://".toList ++ bucket ++ "/gemini_images/".toList ++
          gcs_object_name ts uid prompt),
        public_url := some ("https://storage.googleapis.com/".toList ++ bucket ++
          "/gemini_images/".toList ++ gcs_object_name ts uid prompt),
        filename := some (gcs_object_name ts uid prompt),
        error := none } := by
    rw [save_image_to_gcs, hok]
  have hsplit : ("/gemini_images/".toList : List Char) = '/' :: "gemini_images/".toList := by
    decide
  refine ⟨"gemini_images/".toList ++ gcs_object_name ts uid prompt, rfl, ?_, ?_, ?_, ?_,
    prompt_slug_chars prompt⟩ <;> rw [hsave] <;>
    simp [hsplit, List.cons_append, gcs_object_name]

/-! ### Concrete witness inputs for the front-end claims -/

/-- A response body that passes the success checks, carrying the base64
encoding of the bytes 77, 0, 255. -/
def rGood : ApiResult :=
  { status := some ("success".toList),
    data := some { images := some [b64EncodeBytes [77, 0, 255]], model_version := none } }

/-- A cloud oracle on which every operation succeeds. -/
def opsOk : List Char → Except (List Char) Unit := fun _ => Except.ok ()

/-- A cloud oracle on which every operation raises. -/
def opsBoom : List Char → Except (List Char) Unit := fun _ => Except.error ("boom".toList)

/-- Claim C7, witness: on a concrete successful response the stored string
is the first image and the displayed bytes are the original buffer. -/
theorem image_transport_roundtrip_witness :
    (generate_handler 200 rGood false ("t".toList) ("u".toList) ("b".toList) ("p".toList)
        opsOk (Except.ok [])).stored_image = some (b64EncodeBytes [77, 0, 255]) ∧
      displayed_image_bytes
        (generate_handler 200 rGood false ("t".toList) ("u".toList) ("b".toList) ("p".toList)
          opsOk (Except.ok [])).stored_image = some [77, 0, 255] :=
  image_transport_roundtrip 200 rGood false ("t".toList) ("u".toList) ("b".toList)
    ("p".toList) opsOk (Except.ok []) [77, 0, 255] []
    { images := some [b64EncodeBytes [77, 0, 255]], model_version := none }
    rfl rfl rfl rfl (by decide)

/-- Claim C8, witness: with logging off no cloud call happens, and on a
successful run with logging on the calls are exactly the GCS upload
followed by the BigQuery insert. -/
theorem cloud_logging_gated_witness :
    (generate_handler 200 rGood false ("t".toList) ("u".toList) ("b".toList) ("p".toList)
        opsOk (Except.ok [])).calls = [] ∧
      ((save_image_to_gcs ("t".toList) ("u".toList) ("b".toList) ("p".toList) opsOk).success =
          true ∧
        (generate_handler 200 rGood true ("t".toList) ("u".toList) ("b".toList) ("p".toList)
          opsOk (Except.ok [])).calls = [CloudCall.gcsUpload, CloudCall.bqInsert]) :=
  ⟨(cloud_logging_gated 200 rGood false ("t".toList) ("u".toList) ("b".toList) ("p".toList)
      opsOk (Except.ok [])).1 rfl,
    (cloud_logging_gated 200 rGood true ("t".toList) ("u".toList) ("b".toList) ("p".toList)
      opsOk (Except.ok [])).2.2 (by decide)⟩

/-- Claim C9, witness: a raised exception is returned as a success-false
dictionary carrying the message, for both helpers. -/
theorem logging_helpers_never_raise_witness :
    save_image_to_gcs ("t".toList) ("u".toList) ("b".toList) ("p".toList) opsBoom =
        { success := false, gcs_uri := none, public_url := none, filename := none,
          error := some ("boom".toList) } ∧
      log_to_bigquery (Except.error ("down".toList)) =
        { success := false, errors := none, error := some ("down".toList) } :=
  ⟨(logging_helpers_never_raise ("t".toList) ("u".toList) ("b".toList) ("p".toList)
      opsBoom (Except.error ("down".toList))).1 ("boom".toList) rfl,
    (logging_helpers_never_raise ("t".toList) ("u".toList) ("b".toList) ("p".toList)
      opsBoom (Except.error ("down".toList))).2.1 ("down".toList) rfl⟩

/-- Claim C10, witness: the amended theorem instantiated on a concrete
timestamp, id, bucket and prompt. -/
theorem gcs_object_identity_witness :
    ∃ objectPath,
      objectPath = "gemini_images/".toList ++ "20240101".toList ++ '_' ::
          ("abcdefgh1234".toList).take 8 ++ '_' :: prompt_slug ("A cat".toList) ++
          ".png".toList ∧
      (save_image_to_gcs ("20240101".toList) ("abcdefgh1234".toList) ("bkt".toList)
          ("A cat".toList) opsOk).success = true ∧
      (save_image_to_gcs ("20240101".toList) ("abcdefgh1234".toList) ("bkt".toList)
          ("A cat".toList) opsOk).filename =
        some ("20240101".toList ++ '_' :: ("abcdefgh1234".toList).take 8 ++ '_' ::
          prompt_slug ("A cat".toList) ++ ".png".toList) ∧
      (save_image_to_gcs ("20240101".toList) ("abcdefgh1234".toList) ("bkt".toList)
          ("A cat".toList) opsOk).gcs_uri =
        some ("gs://".toList ++ "bkt".toList ++ '/' :: objectPath) ∧
      (save_image_to_gcs ("20240101".toList) ("abcdefgh1234".toList) ("bkt".toList)
          ("A cat".toList) opsOk).public_url =
        some ("https://storage.googleapis.com/".toList ++ "bkt".toList ++ '/' :: objectPath) ∧
      ∀ c ∈ prompt_slug ("A cat".toList),
        c.isAlphanum = true ∨ c = '_' ∨ (c.isWhitespace = true ∧ c ≠ ' ') :=
  gcs_object_identity ("20240101".toList) ("abcdefgh1234".toList) ("bkt".toList)
    ("A cat".toList) opsOk rfl
